import Mathlib

/-!
Verification of the LMI-based Koopman regressor core (`pykoop/lmi.py`).

The embedding works over exact rationals. The SDP solver backend and the
scipy linear-algebra decompositions are injected as function parameters,
mirroring the specification, which treats the solver as an injected
capability and the numeric decompositions as outside collaborators:
each alternating fit loop receives one oracle per subproblem family,
standing for "formulate the picos problem from the current certificate,
hand it to the backend, and read back the claimed status and the valued
variables".  The cooperative cancellation flag `polite_stop` is a global
mutable polled at fixed program points; it is modelled as a function from
the index of the poll (in program order) to the value of the flag at that
poll.  Float square roots are handled exactly: the loop comparison
`sqrt(trace(A @ A.T)) < tol` is embedded as the equivalent rational
comparison `0 < tol and trace(A @ A.T) < tol^2`, and a bridging theorem
relates it to the real square root.
-/

set_option autoImplicit false

namespace Pykoop

open Matrix

/-- Positive semidefiniteness over `ℚ`: symmetric with nonnegative quadratic
form.  This is the meaning of a picos `>> 0` constraint on an affine matrix
expression. -/
def IsPSD {n : Type} [Fintype n] (M : Matrix n n ℚ) : Prop :=
  Mᵀ = M ∧ ∀ v : n → ℚ, 0 ≤ Matrix.dotProduct v (M.mulVec v)

/-- Embeds `_calc_c_G_H(X, y, alpha)`: `Psi = X.T`, `Theta_p = y.T`,
`q = Psi.shape[1]`, `G = (Theta_p @ Psi.T) / q`,
`H_unreg = (Psi @ Psi.T) / q`, `H_reg = H_unreg + (alpha * np.eye(p)) / q`,
`c = np.trace(Theta_p @ Theta_p.T) / q`.  The `stats` dictionary of the
source holds condition numbers and ranks used only for logging and is
omitted; the function returns `(c, G, H_reg)`. -/
def calc_c_G_H {q p pt : ℕ} (X : Matrix (Fin q) (Fin p) ℚ)
    (y : Matrix (Fin q) (Fin pt) ℚ) (alpha : ℚ) :
    ℚ × Matrix (Fin pt) (Fin p) ℚ × Matrix (Fin p) (Fin p) ℚ :=
  let Psi := Xᵀ
  let Theta_p := yᵀ
  let qs : ℚ := (q : ℚ)
  let G := qs⁻¹ • (Theta_p * Psiᵀ)
  let H_unreg := qs⁻¹ • (Psi * Psiᵀ)
  let H_reg := H_unreg + qs⁻¹ • (alpha • (1 : Matrix (Fin p) (Fin p) ℚ))
  let c := (Theta_p * Theta_pᵀ).trace / qs
  (c, G, H_reg)

/-- Embeds `_calc_Hinv(H) = scipy.linalg.inv(H)`: the exact matrix inverse,
written computably through the adjugate formula. -/
def calc_Hinv {p : ℕ} (H : Matrix (Fin p) (Fin p) ℚ) : Matrix (Fin p) (Fin p) ℚ :=
  H.det⁻¹ • H.adjugate

/-- Embeds `_calc_VsqrtLmb(H) = V @ np.diag(np.sqrt(lmb))` where
`lmb, V = scipy.linalg.eigh(H)`.  The eigendecomposition is an outside
computation, so the eigenvector matrix `V` and the entrywise square roots
`s` of the eigenvalues are taken as inputs; theorems constrain them by the
decomposition equations. -/
def calc_VsqrtLmb {p : ℕ} (V : Matrix (Fin p) (Fin p) ℚ) (s : Fin p → ℚ) :
    Matrix (Fin p) (Fin p) ℚ :=
  V * Matrix.diagonal s

/-- Embeds `_calc_LsqrtD(H) = L @ np.sqrt(D)` where
`L, D, _ = scipy.linalg.ldl(H)`.  For SPD `H` the block-diagonal `D` is
diagonal; `t` holds the entrywise square roots of its diagonal. -/
def calc_LsqrtD {p : ℕ} (L : Matrix (Fin p) (Fin p) ℚ) (t : Fin p → ℚ) :
    Matrix (Fin p) (Fin p) ℚ :=
  L * Matrix.diagonal t

/-- Embeds `_calc_L(H) = scipy.linalg.cholesky(H, lower=True)`: the lower
Cholesky factor, taken as input and returned unchanged. -/
def calc_L {p : ℕ} (L : Matrix (Fin p) (Fin p) ℚ) : Matrix (Fin p) (Fin p) ℚ :=
  L

/-- Embeds `_calc_sqrtH(H) = scipy.linalg.sqrtm(H)`: the principal square
root, taken as input and returned unchanged. -/
def calc_sqrtH {p : ℕ} (S : Matrix (Fin p) (Fin p) ℚ) : Matrix (Fin p) (Fin p) ℚ :=
  S

/-- The scipy-backed factor computations used by `_get_base_problem`,
injected as oracles: `hpinv` for `_calc_Hpinv`, `vsqrtLmb` for
`_calc_VsqrtLmb`, `lsqrtD` for `_calc_LsqrtD`, `chol` for `_calc_L`, and
`sqrtH` for `_calc_sqrtH`. -/
structure LinalgOracles (p : ℕ) where
  hpinv : Matrix (Fin p) (Fin p) ℚ → Matrix (Fin p) (Fin p) ℚ
  vsqrtLmb : Matrix (Fin p) (Fin p) ℚ → Matrix (Fin p) (Fin p) ℚ
  lsqrtD : Matrix (Fin p) (Fin p) ℚ → Matrix (Fin p) (Fin p) ℚ
  chol : Matrix (Fin p) (Fin p) ℚ → Matrix (Fin p) (Fin p) ℚ
  sqrtH : Matrix (Fin p) (Fin p) ℚ → Matrix (Fin p) (Fin p) ℚ

/-- A picos problem as built by the base problem constructor: the variables
are `U` (a `pt × p` `RealVariable`) and `Z` (a `pt × pt`
`SymmetricVariable`); the problem holds a list of constraints over the two
variables and a scalar objective to minimize. -/
structure Problem (pt p : ℕ) where
  constraints : List (Matrix (Fin pt) (Fin p) ℚ → Matrix (Fin pt) (Fin pt) ℚ → Prop)
  objective : Matrix (Fin pt) (Fin p) ℚ → Matrix (Fin pt) (Fin pt) ℚ → ℚ

/-- Feasible points of a problem: `Z` is declared a `picos.SymmetricVariable`,
so it ranges over symmetric matrices, and every added constraint holds. -/
def Problem.feasible {pt p : ℕ} (pr : Problem pt p)
    (U : Matrix (Fin pt) (Fin p) ℚ) (Z : Matrix (Fin pt) (Fin pt) ℚ) : Prop :=
  Zᵀ = Z ∧ ∀ C ∈ pr.constraints, C U Z

/-- The list `valid_inv_methods` of `_validate_parameters`. -/
def validInvMethods : List String := ["inv", "pinv", "eig", "ldl", "chol", "sqrt"]

/-- Embeds `LmiEdmdTikhonovReg._get_base_problem(X, y)`.  It computes
`c, G, H` via `_calc_c_G_H`, adds the constraint `Z >> picos_eps` (a scalar
compared against a symmetric matrix in picos stands for that multiple of the
identity), adds the Schur block constraint selected by `inv_method`, and
sets the objective `min c - 2*trace(U*G^T) + trace(Z)`.  The trailing
branch for an unrecognized method raises; that is the `none` case. -/
def getBaseProblem {q p pt : ℕ} (ext : LinalgOracles p) (invMethod : String)
    (eps alpha : ℚ) (X : Matrix (Fin q) (Fin p) ℚ) (y : Matrix (Fin q) (Fin pt) ℚ) :
    Option (Problem pt p) :=
  let r := calc_c_G_H X y alpha
  let c := r.1
  let G := r.2.1
  let H := r.2.2
  let zCon : Matrix (Fin pt) (Fin p) ℚ → Matrix (Fin pt) (Fin pt) ℚ → Prop :=
    fun _ Z => IsPSD (Z - eps • (1 : Matrix (Fin pt) (Fin pt) ℚ))
  let obj : Matrix (Fin pt) (Fin p) ℚ → Matrix (Fin pt) (Fin pt) ℚ → ℚ :=
    fun U Z => c - 2 * (U * Gᵀ).trace + Z.trace
  if invMethod = "inv" then
    some ⟨[zCon, fun U Z => IsPSD (Matrix.fromBlocks Z U Uᵀ (calc_Hinv H))], obj⟩
  else if invMethod = "pinv" then
    some ⟨[zCon, fun U Z => IsPSD (Matrix.fromBlocks Z U Uᵀ (ext.hpinv H))], obj⟩
  else if invMethod = "eig" then
    some ⟨[zCon, fun U Z =>
      IsPSD (Matrix.fromBlocks Z (U * ext.vsqrtLmb H) ((ext.vsqrtLmb H)ᵀ * Uᵀ) 1)], obj⟩
  else if invMethod = "ldl" then
    some ⟨[zCon, fun U Z =>
      IsPSD (Matrix.fromBlocks Z (U * ext.lsqrtD H) ((ext.lsqrtD H)ᵀ * Uᵀ) 1)], obj⟩
  else if invMethod = "chol" then
    some ⟨[zCon, fun U Z =>
      IsPSD (Matrix.fromBlocks Z (U * ext.chol H) ((ext.chol H)ᵀ * Uᵀ) 1)], obj⟩
  else if invMethod = "sqrt" then
    some ⟨[zCon, fun U Z =>
      IsPSD (Matrix.fromBlocks Z (U * ext.sqrtH H) ((ext.sqrtH H)ᵀ * Uᵀ) 1)], obj⟩
  else
    none

/-- The factorization-specific Schur complement block appearing in the base
problem, per method; the default case is unreachable for validated methods. -/
def schurBlock {p pt : ℕ} (ext : LinalgOracles p) (invMethod : String)
    (H : Matrix (Fin p) (Fin p) ℚ) (U : Matrix (Fin pt) (Fin p) ℚ)
    (Z : Matrix (Fin pt) (Fin pt) ℚ) : Matrix (Fin pt ⊕ Fin p) (Fin pt ⊕ Fin p) ℚ :=
  if invMethod = "inv" then Matrix.fromBlocks Z U Uᵀ (calc_Hinv H)
  else if invMethod = "pinv" then Matrix.fromBlocks Z U Uᵀ (ext.hpinv H)
  else if invMethod = "eig" then
    Matrix.fromBlocks Z (U * ext.vsqrtLmb H) ((ext.vsqrtLmb H)ᵀ * Uᵀ) 1
  else if invMethod = "ldl" then
    Matrix.fromBlocks Z (U * ext.lsqrtD H) ((ext.lsqrtD H)ᵀ * Uᵀ) 1
  else if invMethod = "chol" then
    Matrix.fromBlocks Z (U * ext.chol H) ((ext.chol H)ᵀ * Uᵀ) 1
  else if invMethod = "sqrt" then
    Matrix.fromBlocks Z (U * ext.sqrtH H) ((ext.sqrtH H)ᵀ * Uᵀ) 1
  else 0

/-- Embeds `LmiEdmdTikhonovReg._validate_parameters`: negative `alpha` and
unrecognized `inv_method` raise `ValueError`.  The merging of solver
parameter dictionaries that follows has no effect on control flow and is
omitted. -/
def validateTikhonov (alpha : ℚ) (invMethod : String) : Except String Unit :=
  if alpha < 0 then
    Except.error "`alpha` must be greater than zero."
  else if invMethod ∈ validInvMethods then
    Except.ok ()
  else
    Except.error "`inv_method` must be one of: inv, pinv, eig, ldl, chol, sqrt."

/-- Embeds `LmiEdmdTwoNormReg._validate_parameters`: `alpha == 0` and
`ratio == 0` raise `ValueError`, then the parent validation runs. -/
def validateTwoNorm (alpha ratioParam : ℚ) (invMethod : String) : Except String Unit :=
  if alpha = 0 then
    Except.error "Value of `alpha` should not be zero."
  else if ratioParam = 0 then
    Except.error "Value of `ratio` should not be zero."
  else validateTikhonov alpha invMethod

/-- Embeds `LmiEdmdNuclearNormReg._validate_parameters` (same body as the
two-norm variant in the source). -/
def validateNuclear (alpha ratioParam : ℚ) (invMethod : String) : Except String Unit :=
  if alpha = 0 then
    Except.error "Value of `alpha` should not be zero."
  else if ratioParam = 0 then
    Except.error "Value of `ratio` should not be zero."
  else validateTikhonov alpha invMethod

/-- Embeds `LmiEdmdHinfReg._validate_parameters` (same body as the two-norm
variant in the source). -/
def validateHinf (alpha ratioParam : ℚ) (invMethod : String) : Except String Unit :=
  if alpha = 0 then
    Except.error "Value of `alpha` should not be zero."
  else if ratioParam = 0 then
    Except.error "Value of `ratio` should not be zero."
  else validateTikhonov alpha invMethod

/-- What the solver backend reports for a single-shot problem: the claimed
status string of `problem.last_solution` and the valued variable `U`. -/
structure SolveRes (pt p : ℕ) where
  status : String
  U : Matrix (Fin pt) (Fin p) ℚ
deriving DecidableEq

/-- The fitted attributes set by a single-shot fit, plus whether the method
body ends in `return self`. -/
structure SingleShotResult (pt p : ℕ) where
  solution_status_ : String
  coef_ : Matrix (Fin p) (Fin pt) ℚ
  self_returned : Bool
deriving DecidableEq

/-- Embeds `LmiEdmdTikhonovReg.fit(X, y)`: validate parameters, validate the
data (row counts agree by typing; `ensure_min_samples` is 2), build the base
problem, solve it, record `problem.last_solution.claimedStatus`, extract
`coef_ = U.T`, and return `self`.  `solver` is the injected backend; no
branch of the source inspects the returned status. -/
def tikhonovFit {q p pt : ℕ} (ext : LinalgOracles p)
    (solver : Problem pt p → SolveRes pt p) (alpha eps : ℚ) (invMethod : String)
    (X : Matrix (Fin q) (Fin p) ℚ) (y : Matrix (Fin q) (Fin pt) ℚ) :
    Except String (SingleShotResult pt p) :=
  match validateTikhonov alpha invMethod with
  | Except.error e => Except.error e
  | Except.ok _ =>
    if q < 2 then Except.error "at least 2 samples are required"
    else
      match getBaseProblem ext invMethod eps alpha X y with
      | none => Except.error "Invalid value for `inv_method`."
      | some prob =>
        let r := solver prob
        Except.ok { solution_status_ := r.status, coef_ := r.Uᵀ, self_returned := true }

/-- A picos problem after `_add_twonorm`: the added scalar `RealVariable`
`gamma` joins `U` and `Z`, so constraints and objective take three
arguments. -/
structure Problem2 (pt p : ℕ) where
  constraints : List (Matrix (Fin pt) (Fin p) ℚ → Matrix (Fin pt) (Fin pt) ℚ → ℚ → Prop)
  objective : Matrix (Fin pt) (Fin p) ℚ → Matrix (Fin pt) (Fin pt) ℚ → ℚ → ℚ

/-- Embeds `LmiEdmdTwoNormReg._add_twonorm(X, y, problem)`: add the scalar
variable `gamma`, the constraint
`[[gamma*I_p, U.T], [U, gamma*I_ptheta]] >> 0`, and the objective term
`(alpha_other/q) * gamma`. -/
def addTwonorm {pt p : ℕ} (alphaOther : ℚ) (qn : ℕ) (pr : Problem pt p) :
    Problem2 pt p :=
  { constraints :=
      pr.constraints.map (fun C => fun U Z _ => C U Z) ++
        [fun U _ g => IsPSD (Matrix.fromBlocks
          (g • (1 : Matrix (Fin p) (Fin p) ℚ)) Uᵀ
          U (g • (1 : Matrix (Fin pt) (Fin pt) ℚ)))],
    objective := fun U Z g => pr.objective U Z + alphaOther / (qn : ℚ) * g }

/-- Embeds `LmiEdmdTwoNormReg.fit(X, y)`: validate, split
`alpha_tikhonov_reg_ = alpha*(1-ratio)` and `alpha_other_reg_ = alpha*ratio`,
build the base problem with the Tikhonov share, add the two-norm block,
solve, record the claimed status, extract `coef_ = U.T`, return `self`.
Again no branch inspects the status. -/
def twoNormFit {q p pt : ℕ} (ext : LinalgOracles p)
    (solver2 : Problem2 pt p → SolveRes pt p) (alpha ratioParam eps : ℚ)
    (invMethod : String) (X : Matrix (Fin q) (Fin p) ℚ)
    (y : Matrix (Fin q) (Fin pt) ℚ) : Except String (SingleShotResult pt p) :=
  match validateTwoNorm alpha ratioParam invMethod with
  | Except.error e => Except.error e
  | Except.ok _ =>
    if q < 2 then Except.error "at least 2 samples are required"
    else
      match getBaseProblem ext invMethod eps (alpha * (1 - ratioParam)) X y with
      | none => Except.error "Invalid value for `inv_method`."
      | some prob =>
        let r := solver2 (addTwonorm (alpha * ratioParam) q prob)
        Except.ok { solution_status_ := r.status, coef_ := r.Uᵀ, self_returned := true }

/-- The classified stop reason of an iterative fit; each constructor carries
the data interpolated into the `stop_reason_` message of the source. -/
inductive StopReason where
  | userRequested : StopReason
  | solverFailureA : String → StopReason
  | solverFailureB : String → StopReason
  | solverFailureSingle : String → StopReason
  | tolReached : ℚ → StopReason
  | maxIterReached : ℕ → StopReason
deriving DecidableEq

/-- Embeds `_fast_frob_norm(A) = np.sqrt(np.trace(A @ A.T))` over the reals. -/
noncomputable def fast_frob_norm {m n : ℕ} (A : Matrix (Fin m) (Fin n) ℚ) : ℝ :=
  Real.sqrt (((A * Aᵀ).trace : ℚ) : ℝ)

/-- The loop comparison `_fast_frob_norm(U_prev - U) < tol`, embedded as the
equivalent rational test `0 < tol and trace(A @ A.T) < tol^2` (the square
root of a nonnegative rational is below `tol` exactly then). -/
def frobLtTol {m n : ℕ} (A : Matrix (Fin m) (Fin n) ℚ) (tol : ℚ) : Bool :=
  decide (0 < tol ∧ (A * Aᵀ).trace < tol ^ 2)

/-- Solver report for problem A of `LmiEdmdSpectralRadiusConstr.fit` (and,
with the same shape, for the single problem of the Ico variant): status plus
the valued `U` and `P`. -/
structure SolveOutA (pt p : ℕ) where
  status : String
  U : Matrix (Fin pt) (Fin p) ℚ
  P : Matrix (Fin pt) (Fin pt) ℚ
deriving DecidableEq

/-- Solver report for problem B of `LmiEdmdSpectralRadiusConstr.fit`: status
plus the valued `Gamma`. -/
structure SolveOutB (pt : ℕ) where
  status : String
  Gamma : Matrix (Fin pt) (Fin pt) ℚ
deriving DecidableEq

/-- The mutable loop state of `LmiEdmdSpectralRadiusConstr.fit`:
`Gamma`, `U_prev`, `U`, `P`, and the last computed `difference` (stored as
the squared Frobenius norm; `none` before any full round). -/
structure SpecIterState (pt p : ℕ) where
  Gamma : Matrix (Fin pt) (Fin pt) ℚ
  U_prev : Matrix (Fin pt) (Fin p) ℚ
  U : Matrix (Fin pt) (Fin p) ℚ
  P : Matrix (Fin pt) (Fin pt) ℚ
  difference : Option ℚ
deriving DecidableEq

/-- The loop of `LmiEdmdSpectralRadiusConstr.fit`.  `solveA Gamma`
formulates problem A from the current `Gamma` and solves it; `solveB U P`
likewise for problem B.  `stopFlag` gives the value of `polite_stop` at
each poll: iteration `k` polls at indices `2*k` (before solving A) and
`2*k + 1` (before solving B).  The first argument is the remaining fuel of
`range(max_iter)`; the second is the current value of `k`.  Returns the
final value of `k`, the stop reason (for-else included), and the final
state. -/
def specLoop {pt p : ℕ} (solveA : Matrix (Fin pt) (Fin pt) ℚ → SolveOutA pt p)
    (solveB : Matrix (Fin pt) (Fin p) ℚ → Matrix (Fin pt) (Fin pt) ℚ → SolveOutB pt)
    (stopFlag : ℕ → Bool) (tol : ℚ) (maxIter : ℕ) :
    ℕ → ℕ → SpecIterState pt p → ℕ × StopReason × SpecIterState pt p
  | 0, k, st => (k - 1, StopReason.maxIterReached maxIter, st)
  | remaining + 1, k, st =>
    if stopFlag (2 * k) then (k, StopReason.userRequested, st)
    else
      let a := solveA st.Gamma
      if a.status ≠ "optimal" then (k, StopReason.solverFailureA a.status, st)
      else
        let st1 : SpecIterState pt p := { st with U := a.U, P := a.P }
        if stopFlag (2 * k + 1) then (k, StopReason.userRequested, st1)
        else
          let b := solveB a.U a.P
          if b.status ≠ "optimal" then (k, StopReason.solverFailureB b.status, st1)
          else
            let st2 : SpecIterState pt p := { st1 with Gamma := b.Gamma }
            let d := ((st2.U_prev - st2.U) * (st2.U_prev - st2.U)ᵀ).trace
            let st3 : SpecIterState pt p := { st2 with difference := some d }
            if frobLtTol (st2.U_prev - st2.U) tol then (k, StopReason.tolReached tol, st3)
            else
              specLoop solveA solveB stopFlag tol maxIter remaining (k + 1)
                { st3 with U_prev := st2.U }

/-- The fitted attributes set by `LmiEdmdSpectralRadiusConstr.fit` before
`return self`. -/
structure SpecFitResult (pt p : ℕ) where
  stop_reason_ : StopReason
  tol_reached_ : Option ℚ
  n_iter_ : ℕ
  coef_ : Matrix (Fin p) (Fin pt) ℚ
  Gamma_ : Matrix (Fin pt) (Fin pt) ℚ
  P_ : Matrix (Fin pt) (Fin pt) ℚ
  self_returned : Bool
deriving DecidableEq

/-- Packs a loop exit into the fitted attributes: `tol_reached_` is the last
difference, `n_iter_` is `k + 1` for the final loop counter `k`,
`coef_ = U.T`, and the debugging attributes `Gamma_` and `P_`. -/
def mkSpecResult {pt p : ℕ} (out : ℕ × StopReason × SpecIterState pt p) :
    SpecFitResult pt p :=
  { stop_reason_ := out.2.1, tol_reached_ := out.2.2.difference,
    n_iter_ := out.1 + 1, coef_ := out.2.2.Uᵀ, Gamma_ := out.2.2.Gamma,
    P_ := out.2.2.P, self_returned := true }

/-- The initial guesses of `LmiEdmdSpectralRadiusConstr.fit`:
`Gamma = eye(p_theta)`, `U_prev = 0`, `U = 0`, `P = 0`, no difference yet. -/
def specInit (pt p : ℕ) : SpecIterState pt p :=
  { Gamma := 1, U_prev := 0, U := 0, P := 0, difference := none }

/-- Embeds `LmiEdmdSpectralRadiusConstr.fit`: inherited parameter
validation, initial guesses, the alternation loop, then the fitted
attributes and `return self`.  With `max_iter = 0` the source reads the
loop variable `k` after a loop that never ran, a `NameError`; that is the
error case. -/
def specFit {pt p : ℕ} (solveA : Matrix (Fin pt) (Fin pt) ℚ → SolveOutA pt p)
    (solveB : Matrix (Fin pt) (Fin p) ℚ → Matrix (Fin pt) (Fin pt) ℚ → SolveOutB pt)
    (stopFlag : ℕ → Bool) (alpha tol : ℚ) (invMethod : String) (maxIter : ℕ) :
    Except String (SpecFitResult pt p) :=
  match validateTikhonov alpha invMethod with
  | Except.error e => Except.error e
  | Except.ok _ =>
    if maxIter = 0 then Except.error "NameError: name k is not defined"
    else
      Except.ok (mkSpecResult
        (specLoop solveA solveB stopFlag tol maxIter maxIter 0 (specInit pt p)))

/-- The mutable loop state of `LmiEdmdSpectralRadiusConstrIco.fit`:
the convexification point `(R, S)`, `U_prev`, `U`, and the last
difference. -/
structure IcoState (pt p : ℕ) where
  R : Matrix (Fin pt ⊕ Fin pt) (Fin pt ⊕ Fin pt) ℚ
  S : Matrix (Fin pt ⊕ Fin pt) (Fin pt ⊕ Fin pt) ℚ
  U_prev : Matrix (Fin pt) (Fin p) ℚ
  U : Matrix (Fin pt) (Fin p) ℚ
  difference : Option ℚ
deriving DecidableEq

/-- Embeds `LmiEdmdSpectralRadiusConstrIco._R(U)`: with `A = U[:, :p_theta]`,
returns the block matrix `[[I, A], [0, I]]`. -/
def icoR {pt p : ℕ} (h : pt ≤ p) (U : Matrix (Fin pt) (Fin p) ℚ) :
    Matrix (Fin pt ⊕ Fin pt) (Fin pt ⊕ Fin pt) ℚ :=
  let A := U.submatrix id (Fin.castLE h)
  Matrix.fromBlocks 1 A 0 1

/-- Embeds `LmiEdmdSpectralRadiusConstrIco._S(P)`:
`0.5 * rho_bar * [[P, 0], [0, P]]`. -/
def icoS {pt : ℕ} (rho_bar : ℚ) (P : Matrix (Fin pt) (Fin pt) ℚ) :
    Matrix (Fin pt ⊕ Fin pt) (Fin pt ⊕ Fin pt) ℚ :=
  (rho_bar / 2) • Matrix.fromBlocks P 0 0 P

/-- The loop of `LmiEdmdSpectralRadiusConstrIco.fit`: one problem per
iteration, formulated from the current `(R, S)` and solved by the injected
oracle; `polite_stop` is polled once per iteration, at index `k`. -/
def icoLoop {pt p : ℕ} (h : pt ≤ p) (rho_bar : ℚ)
    (solve : Matrix (Fin pt ⊕ Fin pt) (Fin pt ⊕ Fin pt) ℚ →
      Matrix (Fin pt ⊕ Fin pt) (Fin pt ⊕ Fin pt) ℚ → SolveOutA pt p)
    (stopFlag : ℕ → Bool) (tol : ℚ) (maxIter : ℕ) :
    ℕ → ℕ → IcoState pt p → ℕ × StopReason × IcoState pt p
  | 0, k, st => (k - 1, StopReason.maxIterReached maxIter, st)
  | remaining + 1, k, st =>
    if stopFlag k then (k, StopReason.userRequested, st)
    else
      let a := solve st.R st.S
      if a.status ≠ "optimal" then (k, StopReason.solverFailureSingle a.status, st)
      else
        let st1 : IcoState pt p :=
          { st with U := a.U, R := icoR h a.U, S := icoS rho_bar a.P }
        let d := ((st.U_prev - a.U) * (st.U_prev - a.U)ᵀ).trace
        let st2 : IcoState pt p := { st1 with difference := some d }
        if frobLtTol (st.U_prev - a.U) tol then (k, StopReason.tolReached tol, st2)
        else
          icoLoop h rho_bar solve stopFlag tol maxIter remaining (k + 1)
            { st2 with U_prev := a.U }

/-- The fitted attributes set by `LmiEdmdSpectralRadiusConstrIco.fit`; its
body sets them and then ends without a `return` statement, so the method
returns `None`: `self_returned` is `false`. -/
structure IcoFitResult (pt p : ℕ) where
  stop_reason_ : StopReason
  tol_reached_ : Option ℚ
  n_iter_ : ℕ
  coef_ : Matrix (Fin p) (Fin pt) ℚ
  self_returned : Bool
deriving DecidableEq

/-- Embeds `LmiEdmdSpectralRadiusConstrIco.fit`.  The initial `(R, S)` come
from `_initial_guess`, which runs an unconstrained least squares, an
eigenvalue rescaling, and an auxiliary feasibility SDP through outside
routines; they are injected as `R0`, `S0`.  `U = U_prev = 0` as in the
source.  The source sets the fitted attributes and falls off the end of the
method, returning `None`. -/
def icoFit {pt p : ℕ} (h : pt ≤ p) (rho_bar : ℚ)
    (solve : Matrix (Fin pt ⊕ Fin pt) (Fin pt ⊕ Fin pt) ℚ →
      Matrix (Fin pt ⊕ Fin pt) (Fin pt ⊕ Fin pt) ℚ → SolveOutA pt p)
    (stopFlag : ℕ → Bool) (alpha tol : ℚ) (invMethod : String) (maxIter : ℕ)
    (R0 S0 : Matrix (Fin pt ⊕ Fin pt) (Fin pt ⊕ Fin pt) ℚ) :
    Except String (IcoFitResult pt p) :=
  match validateTikhonov alpha invMethod with
  | Except.error e => Except.error e
  | Except.ok _ =>
    if maxIter = 0 then Except.error "NameError: name k is not defined"
    else
      let out := icoLoop h rho_bar solve stopFlag tol maxIter maxIter 0
        { R := R0, S := S0, U_prev := 0, U := 0, difference := none }
      let res : IcoFitResult pt p :=
        { stop_reason_ := out.2.1, tol_reached_ := out.2.2.difference,
          n_iter_ := out.1 + 1, coef_ := out.2.2.Uᵀ, self_returned := false }
      Except.ok res

/-- The constructor parameters stored by
`LmiEdmdDissipativityConstr.__init__`. -/
structure DissipParams where
  alpha : ℚ
  max_iter : ℕ
  tol : ℚ
  inv_method : String
  picos_eps : ℚ
deriving DecidableEq

/-- Embeds `LmiEdmdDissipativityConstr.__init__(alpha, max_iter, tol,
inv_method, picos_eps, solver_params)`: the source assigns `self.alpha = 0`,
ignoring the `alpha` argument; every other argument is stored as given. -/
def dissipativityInit (alpha : ℚ) (max_iter : ℕ) (tol : ℚ) (inv_method : String)
    (picos_eps : ℚ) : DissipParams :=
  { alpha := 0, max_iter := max_iter, tol := tol, inv_method := inv_method,
    picos_eps := picos_eps }

/-- Solver report for problem A of `LmiEdmdDissipativityConstr.fit`: status
plus the valued `U`. -/
structure SolveOutDissipA (pt p : ℕ) where
  status : String
  U : Matrix (Fin pt) (Fin p) ℚ
deriving DecidableEq

/-- Solver report for problem B of `LmiEdmdDissipativityConstr.fit`: status
plus the valued `P`. -/
structure SolveOutDissipB (pt : ℕ) where
  status : String
  P : Matrix (Fin pt) (Fin pt) ℚ
deriving DecidableEq

/-- The mutable loop state of `LmiEdmdDissipativityConstr.fit`. -/
structure DissipState (pt p : ℕ) where
  P : Matrix (Fin pt) (Fin pt) ℚ
  U_prev : Matrix (Fin pt) (Fin p) ℚ
  U : Matrix (Fin pt) (Fin p) ℚ
  difference : Option ℚ
deriving DecidableEq

/-- The loop of `LmiEdmdDissipativityConstr.fit`: problem A is formulated
from the current `P` and solved for `U`; problem B from the current `U` and
solved for `P`; `polite_stop` is polled at indices `2*k` and `2*k + 1`. -/
def dissipLoop {pt p : ℕ}
    (solveA : Matrix (Fin pt) (Fin pt) ℚ → SolveOutDissipA pt p)
    (solveB : Matrix (Fin pt) (Fin p) ℚ → SolveOutDissipB pt)
    (stopFlag : ℕ → Bool) (tol : ℚ) (maxIter : ℕ) :
    ℕ → ℕ → DissipState pt p → ℕ × StopReason × DissipState pt p
  | 0, k, st => (k - 1, StopReason.maxIterReached maxIter, st)
  | remaining + 1, k, st =>
    if stopFlag (2 * k) then (k, StopReason.userRequested, st)
    else
      let a := solveA st.P
      if a.status ≠ "optimal" then (k, StopReason.solverFailureA a.status, st)
      else
        let st1 : DissipState pt p := { st with U := a.U }
        if stopFlag (2 * k + 1) then (k, StopReason.userRequested, st1)
        else
          let b := solveB a.U
          if b.status ≠ "optimal" then (k, StopReason.solverFailureB b.status, st1)
          else
            let st2 : DissipState pt p := { st1 with P := b.P }
            let d := ((st2.U_prev - st2.U) * (st2.U_prev - st2.U)ᵀ).trace
            let st3 : DissipState pt p := { st2 with difference := some d }
            if frobLtTol (st2.U_prev - st2.U) tol then (k, StopReason.tolReached tol, st3)
            else
              dissipLoop solveA solveB stopFlag tol maxIter remaining (k + 1)
                { st3 with U_prev := st2.U }

/-- The fitted attributes set by `LmiEdmdDissipativityConstr.fit` before
`return self`; `alpha_tikhonov_reg_` is assigned from the stored `alpha`
before the loop. -/
structure DissipFitResult (pt p : ℕ) where
  alpha_tikhonov_reg_ : ℚ
  stop_reason_ : StopReason
  tol_reached_ : Option ℚ
  n_iter_ : ℕ
  coef_ : Matrix (Fin p) (Fin pt) ℚ
  P_ : Matrix (Fin pt) (Fin pt) ℚ
  self_returned : Bool
deriving DecidableEq

/-- Embeds `LmiEdmdDissipativityConstr.fit`: inherited validation on the
stored parameters, `alpha_tikhonov_reg_ = self.alpha`, initial guess
`P = eye(p_theta)`, the alternation loop, the fitted attributes, and
`return self`.  The supply rate matrix from `kwargs` feeds only the
formulated problems and is folded into the oracles. -/
def dissipFit {pt p : ℕ} (params : DissipParams)
    (solveA : Matrix (Fin pt) (Fin pt) ℚ → SolveOutDissipA pt p)
    (solveB : Matrix (Fin pt) (Fin p) ℚ → SolveOutDissipB pt)
    (stopFlag : ℕ → Bool) : Except String (DissipFitResult pt p) :=
  match validateTikhonov params.alpha params.inv_method with
  | Except.error e => Except.error e
  | Except.ok _ =>
    if params.max_iter = 0 then Except.error "NameError: name k is not defined"
    else
      let init : DissipState pt p := { P := 1, U_prev := 0, U := 0, difference := none }
      let out := dissipLoop solveA solveB stopFlag params.tol params.max_iter
        params.max_iter 0 init
      let res : DissipFitResult pt p :=
        { alpha_tikhonov_reg_ := params.alpha, stop_reason_ := out.2.1,
          tol_reached_ := out.2.2.difference, n_iter_ := out.1 + 1,
          coef_ := out.2.2.Uᵀ, P_ := out.2.2.P, self_returned := true }
      Except.ok res

/-! Helper lemmas. -/

/-- The trace of `A * Aᵀ` is a sum of squares, hence nonnegative. -/
theorem trace_mul_transpose_nonneg {m n : ℕ} (A : Matrix (Fin m) (Fin n) ℚ) :
    0 ≤ (A * Aᵀ).trace := by
  have h : (A * Aᵀ).trace = ∑ i, ∑ j, A i j * A i j := by
    simp [Matrix.trace, Matrix.diag, Matrix.mul_apply, Matrix.transpose_apply]
  rw [h]
  refine Finset.sum_nonneg fun i _ => Finset.sum_nonneg fun j _ => mul_self_nonneg _

/-- The rational loop test agrees with the real comparison
`_fast_frob_norm(A) < tol`. -/
theorem frobLtTol_iff_fast_frob_norm {m n : ℕ} (A : Matrix (Fin m) (Fin n) ℚ)
    (tol : ℚ) : frobLtTol A tol = true ↔ fast_frob_norm A < (tol : ℝ) := by
  have hnn : (0 : ℚ) ≤ (A * Aᵀ).trace := trace_mul_transpose_nonneg A
  rw [frobLtTol, decide_eq_true_eq]
  unfold fast_frob_norm
  constructor
  · rintro ⟨ht, hlt⟩
    have ht' : (0 : ℝ) < (tol : ℚ) := by exact_mod_cast ht
    refine (Real.sqrt_lt' ht').mpr ?_
    have : (((A * Aᵀ).trace : ℚ) : ℝ) < ((tol ^ 2 : ℚ) : ℝ) := by exact_mod_cast hlt
    calc (((A * Aᵀ).trace : ℚ) : ℝ) < ((tol ^ 2 : ℚ) : ℝ) := this
      _ = ((tol : ℚ) : ℝ) ^ 2 := by push_cast; ring
  · intro hlt
    have ht' : (0 : ℝ) < (tol : ℚ) := by
      refine lt_of_le_of_lt (Real.sqrt_nonneg _) hlt
    have ht : (0 : ℚ) < tol := by exact_mod_cast ht'
    refine ⟨ht, ?_⟩
    have := (Real.sqrt_lt' ht').mp hlt
    have h2 : (((A * Aᵀ).trace : ℚ) : ℝ) < ((tol ^ 2 : ℚ) : ℝ) := by
      calc (((A * Aᵀ).trace : ℚ) : ℝ) < ((tol : ℚ) : ℝ) ^ 2 := this
        _ = ((tol ^ 2 : ℚ) : ℝ) := by push_cast; ring
    exact_mod_cast h2

section SpecLoopLemmas

variable {pt p : ℕ} (solveA : Matrix (Fin pt) (Fin pt) ℚ → SolveOutA pt p)
variable (solveB : Matrix (Fin pt) (Fin p) ℚ → Matrix (Fin pt) (Fin pt) ℚ → SolveOutB pt)
variable (stopFlag : ℕ → Bool) (tol : ℚ) (maxIter r k : ℕ) (st : SpecIterState pt p)

/-- One round of the loop: the flag raised before solving A exits as a user
stop with the state untouched. -/
theorem specLoop_stopA (h1 : stopFlag (2 * k) = true) :
    specLoop solveA solveB stopFlag tol maxIter (r + 1) k st
      = (k, StopReason.userRequested, st) := by
  simp [specLoop, h1]

/-- One round of the loop: a non-optimal status on problem A exits with the
status recorded and the state untouched. -/
theorem specLoop_failA (h1 : stopFlag (2 * k) = false)
    (hA : (solveA st.Gamma).status ≠ "optimal") :
    specLoop solveA solveB stopFlag tol maxIter (r + 1) k st
      = (k, StopReason.solverFailureA (solveA st.Gamma).status, st) := by
  simp [specLoop, h1, hA]

/-- One round of the loop: the flag raised between the solves exits as a
user stop with `U` and `P` updated from problem A. -/
theorem specLoop_stopB (h1 : stopFlag (2 * k) = false)
    (hA : (solveA st.Gamma).status = "optimal") (h2 : stopFlag (2 * k + 1) = true) :
    specLoop solveA solveB stopFlag tol maxIter (r + 1) k st
      = (k, StopReason.userRequested,
         { st with U := (solveA st.Gamma).U, P := (solveA st.Gamma).P }) := by
  simp [specLoop, h1, hA, h2]

/-- One round of the loop: a non-optimal status on problem B exits with the
status recorded and `U`, `P` from problem A retained. -/
theorem specLoop_failB (h1 : stopFlag (2 * k) = false)
    (hA : (solveA st.Gamma).status = "optimal") (h2 : stopFlag (2 * k + 1) = false)
    (hB : (solveB (solveA st.Gamma).U (solveA st.Gamma).P).status ≠ "optimal") :
    specLoop solveA solveB stopFlag tol maxIter (r + 1) k st
      = (k, StopReason.solverFailureB
            (solveB (solveA st.Gamma).U (solveA st.Gamma).P).status,
         { st with U := (solveA st.Gamma).U, P := (solveA st.Gamma).P }) := by
  simp [specLoop, h1, hA, h2, hB]

/-- A full round whose difference is below tolerance stops with the
tolerance reason; `U_prev` is not advanced on this exit path. -/
theorem specLoop_tolStop (h1 : stopFlag (2 * k) = false)
    (hA : (solveA st.Gamma).status = "optimal") (h2 : stopFlag (2 * k + 1) = false)
    (hB : (solveB (solveA st.Gamma).U (solveA st.Gamma).P).status = "optimal")
    (hfrob : frobLtTol (st.U_prev - (solveA st.Gamma).U) tol = true) :
    specLoop solveA solveB stopFlag tol maxIter (r + 1) k st
      = (k, StopReason.tolReached tol,
         { Gamma := (solveB (solveA st.Gamma).U (solveA st.Gamma).P).Gamma,
           U_prev := st.U_prev, U := (solveA st.Gamma).U, P := (solveA st.Gamma).P,
           difference := some (((st.U_prev - (solveA st.Gamma).U)
             * (st.U_prev - (solveA st.Gamma).U)ᵀ).trace) }) := by
  simp [specLoop, h1, hA, h2, hB, hfrob]

/-- A full round whose difference is not below tolerance continues with
`U_prev` advanced and the round counter incremented. -/
theorem specLoop_cont (h1 : stopFlag (2 * k) = false)
    (hA : (solveA st.Gamma).status = "optimal") (h2 : stopFlag (2 * k + 1) = false)
    (hB : (solveB (solveA st.Gamma).U (solveA st.Gamma).P).status = "optimal")
    (hfrob : frobLtTol (st.U_prev - (solveA st.Gamma).U) tol = false) :
    specLoop solveA solveB stopFlag tol maxIter (r + 1) k st
      = specLoop solveA solveB stopFlag tol maxIter r (k + 1)
         { Gamma := (solveB (solveA st.Gamma).U (solveA st.Gamma).P).Gamma,
           U_prev := (solveA st.Gamma).U, U := (solveA st.Gamma).U,
           P := (solveA st.Gamma).P,
           difference := some (((st.U_prev - (solveA st.Gamma).U)
             * (st.U_prev - (solveA st.Gamma).U)ᵀ).trace) } := by
  simp [specLoop, h1, hA, h2, hB, hfrob]

/-- The final loop counter is at most `k + fuel - 1`. -/
theorem specLoop_fst_le :
    ∀ (r k : ℕ) (st : SpecIterState pt p),
      (specLoop solveA solveB stopFlag tol maxIter r k st).1 ≤ k + r - 1 := by
  intro r
  induction r with
  | zero => intro k st; simp [specLoop]
  | succ n ih =>
    intro k st
    simp only [specLoop]
    split_ifs with h1 h2 h3 h4 h5
    · simp
    · simp
    · simp
    · simp
    · simp
    · refine le_trans (ih (k + 1) _) ?_
      omega

end SpecLoopLemmas

/-! Claim theorems. -/

/-- C1: for every data pair with matching row counts and every
regularization weight, `_calc_c_G_H` returns `G = (Theta @ Psi.T)/q`,
`H = (Psi @ Psi.T)/q + alpha*I/q`, and `c = trace(Theta @ Theta.T)/q`,
with `Psi = X.T` and `Theta = y.T`; entrywise this is the sample covariance
of lifted states and targets. -/
theorem calc_c_G_H_spec {q p pt : ℕ} (X : Matrix (Fin q) (Fin p) ℚ)
    (y : Matrix (Fin q) (Fin pt) ℚ) (alpha : ℚ) :
    calc_c_G_H X y alpha =
      ((yᵀ * (yᵀ)ᵀ).trace / (q : ℚ),
       ((q : ℚ))⁻¹ • (yᵀ * (Xᵀ)ᵀ),
       ((q : ℚ))⁻¹ • (Xᵀ * (Xᵀ)ᵀ) + (alpha / (q : ℚ)) • (1 : Matrix (Fin p) (Fin p) ℚ))
    ∧ (∀ i j, (calc_c_G_H X y alpha).2.1 i j = (∑ k, y k i * X k j) / (q : ℚ))
    ∧ (∀ i j, (calc_c_G_H X y alpha).2.2 i j
        = (∑ k, X k i * X k j) / (q : ℚ) + (if i = j then alpha / (q : ℚ) else 0))
    ∧ (calc_c_G_H X y alpha).1 = (∑ i, ∑ k, (y k i) ^ 2) / (q : ℚ) := by
  refine ⟨?_, ?_, ?_, ?_⟩
  · simp [calc_c_G_H, smul_smul, div_eq_mul_inv, mul_comm]
  · intro i j
    simp [calc_c_G_H, Matrix.smul_apply, Matrix.mul_apply, Matrix.transpose_apply,
      div_eq_mul_inv, mul_comm, Finset.mul_sum]
  · intro i j
    simp [calc_c_G_H, Matrix.smul_apply, Matrix.mul_apply, Matrix.transpose_apply,
      Matrix.one_apply, div_eq_mul_inv, mul_comm, Finset.mul_sum, mul_ite]
  · simp [calc_c_G_H, Matrix.trace, Matrix.diag, Matrix.mul_apply,
      Matrix.transpose_apply, pow_two]

/-- C9: each factorization method yields a factor `F` with `F * Fᵀ = H`:
`eig` from `H = V Λ Vᵀ` with `F = V √Λ`, `ldl` from `H = L D Lᵀ` with
`F = L √D`, `chol` from `H = L Lᵀ` with `F = L`, and `sqrt` from the
symmetric principal square root.  The entrywise square roots are supplied
as data constrained by the squaring equations, and the identities are exact. -/
theorem factorization_product_identity {pd : ℕ}
    (H V : Matrix (Fin pd) (Fin pd) ℚ) (lmb s : Fin pd → ℚ)
    (Hl Ll : Matrix (Fin pd) (Fin pd) ℚ) (dvec t : Fin pd → ℚ)
    (Hc Lc : Matrix (Fin pd) (Fin pd) ℚ)
    (Hs Sq : Matrix (Fin pd) (Fin pd) ℚ)
    (heig : H = V * Matrix.diagonal lmb * Vᵀ) (hs : ∀ k, s k * s k = lmb k)
    (hldl : Hl = Ll * Matrix.diagonal dvec * Llᵀ) (ht : ∀ k, t k * t k = dvec k)
    (hchol : Hc = Lc * Lcᵀ)
    (hsym : Sqᵀ = Sq) (hsq : Sq * Sq = Hs) :
    calc_VsqrtLmb V s * (calc_VsqrtLmb V s)ᵀ = H
    ∧ calc_LsqrtD Ll t * (calc_LsqrtD Ll t)ᵀ = Hl
    ∧ calc_L Lc * (calc_L Lc)ᵀ = Hc
    ∧ calc_sqrtH Sq * (calc_sqrtH Sq)ᵀ = Hs := by
  have hdd : Matrix.diagonal s * Matrix.diagonal s = Matrix.diagonal lmb := by
    rw [Matrix.diagonal_mul_diagonal]
    exact congrArg Matrix.diagonal (funext hs)
  have htt : Matrix.diagonal t * Matrix.diagonal t = Matrix.diagonal dvec := by
    rw [Matrix.diagonal_mul_diagonal]
    exact congrArg Matrix.diagonal (funext ht)
  refine ⟨?_, ?_, ?_, ?_⟩
  · simp only [calc_VsqrtLmb, Matrix.transpose_mul, Matrix.diagonal_transpose]
    calc V * Matrix.diagonal s * (Matrix.diagonal s * Vᵀ)
        = V * (Matrix.diagonal s * Matrix.diagonal s) * Vᵀ := by
          simp only [Matrix.mul_assoc]
      _ = H := by rw [hdd, heig, Matrix.mul_assoc]
  · simp only [calc_LsqrtD, Matrix.transpose_mul, Matrix.diagonal_transpose]
    calc Ll * Matrix.diagonal t * (Matrix.diagonal t * Llᵀ)
        = Ll * (Matrix.diagonal t * Matrix.diagonal t) * Llᵀ := by
          simp only [Matrix.mul_assoc]
      _ = Hl := by rw [htt, hldl, Matrix.mul_assoc]
  · simpa [calc_L] using hchol.symm
  · rw [calc_sqrtH, hsym, hsq]

/-- Witness for C9 at `H = V = Λ = L = D = S = I` in dimension one. -/
theorem factorization_product_identity_wit :
    calc_VsqrtLmb (1 : Matrix (Fin 1) (Fin 1) ℚ) (fun _ => 1)
        * (calc_VsqrtLmb (1 : Matrix (Fin 1) (Fin 1) ℚ) (fun _ => 1))ᵀ = 1
    ∧ calc_LsqrtD (1 : Matrix (Fin 1) (Fin 1) ℚ) (fun _ => 1)
        * (calc_LsqrtD (1 : Matrix (Fin 1) (Fin 1) ℚ) (fun _ => 1))ᵀ = 1
    ∧ calc_L (1 : Matrix (Fin 1) (Fin 1) ℚ) * (calc_L (1 : Matrix (Fin 1) (Fin 1) ℚ))ᵀ = 1
    ∧ calc_sqrtH (1 : Matrix (Fin 1) (Fin 1) ℚ)
        * (calc_sqrtH (1 : Matrix (Fin 1) (Fin 1) ℚ))ᵀ = 1 :=
  factorization_product_identity 1 1 (fun _ => 1) (fun _ => 1)
    1 1 (fun _ => 1) (fun _ => 1) 1 1 1 1
    (by simp) (by simp) (by simp) (by simp) (by simp) (by simp) (by simp)

/-- C2: for every valid factorization method and every input, the base
problem exists, its variables are `U` and the symmetric `Z`, its feasible
set is cut out by `Z - eps*I` PSD together with the factorization-specific
Schur block PSD, and its objective is `c - 2*trace(U*G^T) + trace(Z)`. -/
theorem base_problem_structure {q p pt : ℕ} (ext : LinalgOracles p)
    (invMethod : String) (eps alpha c : ℚ) (G : Matrix (Fin pt) (Fin p) ℚ)
    (H : Matrix (Fin p) (Fin p) ℚ) (X : Matrix (Fin q) (Fin p) ℚ)
    (y : Matrix (Fin q) (Fin pt) ℚ)
    (hm : invMethod ∈ validInvMethods)
    (hcgh : calc_c_G_H X y alpha = (c, G, H)) :
    ∃ pr : Problem pt p,
      getBaseProblem ext invMethod eps alpha X y = some pr ∧
      pr.objective = (fun U Z => c - 2 * (U * Gᵀ).trace + Z.trace) ∧
      ∀ U Z, pr.feasible U Z ↔
        (Zᵀ = Z ∧ IsPSD (Z - eps • (1 : Matrix (Fin pt) (Fin pt) ℚ)) ∧
          IsPSD (schurBlock ext invMethod H U Z)) := by
  simp only [validInvMethods, List.mem_cons, List.not_mem_nil, or_false] at hm
  rcases hm with rfl | rfl | rfl | rfl | rfl | rfl
  · exact ⟨⟨[fun _ Z => IsPSD (Z - eps • 1),
        fun U Z => IsPSD (Matrix.fromBlocks Z U Uᵀ (calc_Hinv H))],
        fun U Z => c - 2 * (U * Gᵀ).trace + Z.trace⟩,
      by simp [getBaseProblem, hcgh], rfl,
      fun U Z => by simp [Problem.feasible, schurBlock, and_assoc]⟩
  · exact ⟨⟨[fun _ Z => IsPSD (Z - eps • 1),
        fun U Z => IsPSD (Matrix.fromBlocks Z U Uᵀ (ext.hpinv H))],
        fun U Z => c - 2 * (U * Gᵀ).trace + Z.trace⟩,
      by simp [getBaseProblem, hcgh], rfl,
      fun U Z => by simp [Problem.feasible, schurBlock, and_assoc]⟩
  · exact ⟨⟨[fun _ Z => IsPSD (Z - eps • 1),
        fun U Z => IsPSD (Matrix.fromBlocks Z (U * ext.vsqrtLmb H) ((ext.vsqrtLmb H)ᵀ * Uᵀ) 1)],
        fun U Z => c - 2 * (U * Gᵀ).trace + Z.trace⟩,
      by simp [getBaseProblem, hcgh], rfl,
      fun U Z => by simp [Problem.feasible, schurBlock, and_assoc]⟩
  · exact ⟨⟨[fun _ Z => IsPSD (Z - eps • 1),
        fun U Z => IsPSD (Matrix.fromBlocks Z (U * ext.lsqrtD H) ((ext.lsqrtD H)ᵀ * Uᵀ) 1)],
        fun U Z => c - 2 * (U * Gᵀ).trace + Z.trace⟩,
      by simp [getBaseProblem, hcgh], rfl,
      fun U Z => by simp [Problem.feasible, schurBlock, and_assoc]⟩
  · exact ⟨⟨[fun _ Z => IsPSD (Z - eps • 1),
        fun U Z => IsPSD (Matrix.fromBlocks Z (U * ext.chol H) ((ext.chol H)ᵀ * Uᵀ) 1)],
        fun U Z => c - 2 * (U * Gᵀ).trace + Z.trace⟩,
      by simp [getBaseProblem, hcgh], rfl,
      fun U Z => by simp [Problem.feasible, schurBlock, and_assoc]⟩
  · exact ⟨⟨[fun _ Z => IsPSD (Z - eps • 1),
        fun U Z => IsPSD (Matrix.fromBlocks Z (U * ext.sqrtH H) ((ext.sqrtH H)ᵀ * Uᵀ) 1)],
        fun U Z => c - 2 * (U * Gᵀ).trace + Z.trace⟩,
      by simp [getBaseProblem, hcgh], rfl,
      fun U Z => by simp [Problem.feasible, schurBlock, and_assoc]⟩

/-- Witness for C2: the `chol` branch at a concrete two-sample dataset in
dimension one, with the injected decompositions all the identity map. -/
theorem base_problem_structure_wit :
    ∃ pr : Problem 1 1,
      getBaseProblem ⟨id, id, id, id, id⟩ "chol" 0 0
        (Matrix.of ![![(1 : ℚ)], ![2]]) (Matrix.of ![![(2 : ℚ)], ![4]]) = some pr ∧
      pr.objective = (fun U Z =>
        (calc_c_G_H (Matrix.of ![![(1 : ℚ)], ![2]]) (Matrix.of ![![(2 : ℚ)], ![4]]) 0).1
          - 2 * (U * (calc_c_G_H (Matrix.of ![![(1 : ℚ)], ![2]]) (Matrix.of ![![(2 : ℚ)], ![4]]) 0).2.1ᵀ).trace
          + Z.trace) ∧
      ∀ U Z, pr.feasible U Z ↔
        (Zᵀ = Z ∧ IsPSD (Z - (0 : ℚ) • (1 : Matrix (Fin 1) (Fin 1) ℚ)) ∧
          IsPSD (schurBlock ⟨id, id, id, id, id⟩ "chol"
            (calc_c_G_H (Matrix.of ![![(1 : ℚ)], ![2]]) (Matrix.of ![![(2 : ℚ)], ![4]]) 0).2.2 U Z)) :=
  base_problem_structure ⟨id, id, id, id, id⟩ "chol" 0 0
    (calc_c_G_H (Matrix.of ![![(1 : ℚ)], ![2]]) (Matrix.of ![![(2 : ℚ)], ![4]]) 0).1
    (calc_c_G_H (Matrix.of ![![(1 : ℚ)], ![2]]) (Matrix.of ![![(2 : ℚ)], ![4]]) 0).2.1
    (calc_c_G_H (Matrix.of ![![(1 : ℚ)], ![2]]) (Matrix.of ![![(2 : ℚ)], ![4]]) 0).2.2
    (Matrix.of ![![(1 : ℚ)], ![2]]) (Matrix.of ![![(2 : ℚ)], ![4]])
    (by simp [validInvMethods]) rfl

/-- Counterexample for C7: the mixing-ratio validators accept
`ratio = -1` and `ratio = 2` (with `alpha = 1`), although both are outside
`(0, 1]`; the claimed rejection set is wrong on these inputs. -/
theorem mixing_validation_cex :
    validateTwoNorm 1 (-1) "chol" = Except.ok ()
    ∧ validateNuclear 1 2 "chol" = Except.ok ()
    ∧ validateHinf 1 (-1) "chol" = Except.ok () := by
  refine ⟨?_, ?_, ?_⟩ <;>
    norm_num [validateTwoNorm, validateNuclear, validateHinf, validateTikhonov,
      validInvMethods]

/-- C7 (amended): each mixing-ratio validator accepts exactly the
configurations with `alpha ≠ 0`, `ratio ≠ 0`, `alpha` not negative, and a
recognized `inv_method`; in particular `ratio < 0` and `ratio > 1` are not
rejected. -/
theorem mixing_validation_exact (alpha ratioParam : ℚ) (invMethod : String) :
    (validateTwoNorm alpha ratioParam invMethod = Except.ok () ↔
      (alpha ≠ 0 ∧ ratioParam ≠ 0 ∧ ¬ alpha < 0 ∧ invMethod ∈ validInvMethods))
    ∧ (validateNuclear alpha ratioParam invMethod = Except.ok () ↔
      (alpha ≠ 0 ∧ ratioParam ≠ 0 ∧ ¬ alpha < 0 ∧ invMethod ∈ validInvMethods))
    ∧ (validateHinf alpha ratioParam invMethod = Except.ok () ↔
      (alpha ≠ 0 ∧ ratioParam ≠ 0 ∧ ¬ alpha < 0 ∧ invMethod ∈ validInvMethods)) := by
  refine ⟨?_, ?_, ?_⟩
  · unfold validateTwoNorm validateTikhonov
    split_ifs with h1 h2 h3 h4 <;> simp_all
  · unfold validateNuclear validateTikhonov
    split_ifs with h1 h2 h3 h4 <;> simp_all
  · unfold validateHinf validateTikhonov
    split_ifs with h1 h2 h3 h4 <;> simp_all

/-- Witness for C7 (amended) at `alpha = 1`, `ratio = 1/2`, `chol`. -/
theorem mixing_validation_exact_wit :
    validateTwoNorm 1 (1 / 2) "chol" = Except.ok () :=
  (mixing_validation_exact 1 (1 / 2) "chol").1.mpr
    ⟨by norm_num, by norm_num, by norm_num, by simp [validInvMethods]⟩

/-- Counterexample for C3: with a backend reporting the non-optimal status
`unknown`, the single-shot fits do not raise; they return normally with the
status recorded in `solution_status_`. -/
theorem single_shot_no_raise_cex :
    tikhonovFit ⟨id, id, id, id, id⟩ (fun _ => ⟨"unknown", 0⟩) 0 0 "inv"
        (Matrix.of ![![(1 : ℚ)], ![2]]) (Matrix.of ![![(2 : ℚ)], ![4]])
      = Except.ok ⟨"unknown", 0, true⟩
    ∧ twoNormFit ⟨id, id, id, id, id⟩ (fun _ => ⟨"unknown", 0⟩) 1 1 0 "inv"
        (Matrix.of ![![(1 : ℚ)], ![2]]) (Matrix.of ![![(2 : ℚ)], ![4]])
      = Except.ok ⟨"unknown", 0, true⟩ := by
  constructor
  · norm_num [tikhonovFit, validateTikhonov, validInvMethods, getBaseProblem]
  · norm_num [twoNormFit, validateTwoNorm, validateTikhonov, validInvMethods,
      getBaseProblem]

/-- C3 (amended): on every single-shot fit with valid parameters, whatever
status the backend reports, `fit` does not raise: it records the claimed
status in `solution_status_`, extracts `coef_ = U.T`, and returns `self`. -/
theorem single_shot_records_status {q p pt : ℕ} (ext : LinalgOracles p)
    (solver : Problem pt p → SolveRes pt p) (solver2 : Problem2 pt p → SolveRes pt p)
    (alpha ratioParam eps : ℚ) (invMethod : String)
    (X : Matrix (Fin q) (Fin p) ℚ) (y : Matrix (Fin q) (Fin pt) ℚ)
    (hq : ¬ q < 2) :
    (∀ pr, ¬ alpha < 0 → invMethod ∈ validInvMethods →
      getBaseProblem ext invMethod eps alpha X y = some pr →
      tikhonovFit ext solver alpha eps invMethod X y
        = Except.ok ⟨(solver pr).status, (solver pr).Uᵀ, true⟩)
    ∧ (∀ pr2, alpha ≠ 0 → ratioParam ≠ 0 → ¬ alpha < 0 → invMethod ∈ validInvMethods →
      getBaseProblem ext invMethod eps (alpha * (1 - ratioParam)) X y = some pr2 →
      twoNormFit ext solver2 alpha ratioParam eps invMethod X y
        = Except.ok ⟨(solver2 (addTwonorm (alpha * ratioParam) q pr2)).status,
            (solver2 (addTwonorm (alpha * ratioParam) q pr2)).Uᵀ, true⟩) := by
  constructor
  · intro pr h1 h2 hpr
    have hv : validateTikhonov alpha invMethod = Except.ok () := by
      unfold validateTikhonov
      rw [if_neg h1, if_pos h2]
    simp [tikhonovFit, hv, if_neg hq, hpr]
  · intro pr2 ha0 hr0 h1 h2 hpr
    have hv : validateTwoNorm alpha ratioParam invMethod = Except.ok () := by
      unfold validateTwoNorm validateTikhonov
      rw [if_neg ha0, if_neg hr0, if_neg h1, if_pos h2]
    simp [twoNormFit, hv, if_neg hq, hpr]

/-- Witness for C3 (amended): a concrete fit with an `infeasible` status is
returned, not raised. -/
theorem single_shot_records_status_wit :
    tikhonovFit ⟨id, id, id, id, id⟩ (fun _ => ⟨"infeasible", 0⟩) 1 0 "chol"
        (Matrix.of ![![(1 : ℚ)], ![2]]) (Matrix.of ![![(2 : ℚ)], ![4]])
      = Except.ok ⟨"infeasible", 0, true⟩ := by
  have h := (single_shot_records_status ⟨id, id, id, id, id⟩
    (fun _ => ⟨"infeasible", 0⟩) (fun _ => ⟨"infeasible", 0⟩) 1 1 0 "chol"
    (Matrix.of ![![(1 : ℚ)], ![2]]) (Matrix.of ![![(2 : ℚ)], ![4]])
    (by norm_num)).1 _ (by norm_num) (by simp [validInvMethods]) rfl
  simpa using h

/-- C4: in the alternating fit, a non-optimal status on either subproblem
stops the loop with the status recorded in the stop reason and the last
valid `U` kept in the state (the value before problem A for an A failure,
the value from the just-completed problem A for a B failure); and for valid
parameters the fit never raises: it returns `self` with `coef_` the
transpose of that retained `U`. -/
theorem alternation_nonoptimal_soft_stop {pt p : ℕ}
    (solveA : Matrix (Fin pt) (Fin pt) ℚ → SolveOutA pt p)
    (solveB : Matrix (Fin pt) (Fin p) ℚ → Matrix (Fin pt) (Fin pt) ℚ → SolveOutB pt)
    (stopFlag : ℕ → Bool) (alpha tol : ℚ) (invMethod : String)
    (maxIter r k : ℕ) (st : SpecIterState pt p) :
    (stopFlag (2 * k) = false → (solveA st.Gamma).status ≠ "optimal" →
      specLoop solveA solveB stopFlag tol maxIter (r + 1) k st
        = (k, StopReason.solverFailureA (solveA st.Gamma).status, st))
    ∧ (stopFlag (2 * k) = false → (solveA st.Gamma).status = "optimal" →
        stopFlag (2 * k + 1) = false →
        (solveB (solveA st.Gamma).U (solveA st.Gamma).P).status ≠ "optimal" →
        specLoop solveA solveB stopFlag tol maxIter (r + 1) k st
          = (k, StopReason.solverFailureB
                (solveB (solveA st.Gamma).U (solveA st.Gamma).P).status,
             { st with U := (solveA st.Gamma).U, P := (solveA st.Gamma).P }))
    ∧ (¬ alpha < 0 → invMethod ∈ validInvMethods → maxIter ≠ 0 →
        specFit solveA solveB stopFlag alpha tol invMethod maxIter
          = Except.ok (mkSpecResult
              (specLoop solveA solveB stopFlag tol maxIter maxIter 0 (specInit pt p)))) := by
  refine ⟨?_, ?_, ?_⟩
  · intro h1 hA
    exact specLoop_failA solveA solveB stopFlag tol maxIter r k st h1 hA
  · intro h1 hA h2 hB
    exact specLoop_failB solveA solveB stopFlag tol maxIter r k st h1 hA h2 hB
  · intro hva hvm hmi
    have hv : validateTikhonov alpha invMethod = Except.ok () := by
      unfold validateTikhonov
      rw [if_neg hva, if_pos hvm]
    simp [specFit, hv, hmi]

/-- Witness for C4: a failing problem A, a failing problem B, and a
no-exception fit, each at dimension one. -/
theorem alternation_nonoptimal_soft_stop_wit :
    specLoop (fun _ => (⟨"unknown", 0, 0⟩ : SolveOutA 1 1))
        (fun _ _ => ⟨"optimal", 0⟩) (fun _ => false) 1 5 (0 + 1) 0 (specInit 1 1)
      = (0, StopReason.solverFailureA "unknown", specInit 1 1)
    ∧ specLoop (fun _ => (⟨"optimal", 0, 0⟩ : SolveOutA 1 1))
        (fun _ _ => ⟨"stalled", 0⟩) (fun _ => false) 1 5 (0 + 1) 0 (specInit 1 1)
      = (0, StopReason.solverFailureB "stalled", specInit 1 1)
    ∧ specFit (fun _ => (⟨"optimal", 0, 0⟩ : SolveOutA 1 1))
        (fun _ _ => ⟨"stalled", 0⟩) (fun _ => false) 0 1 "chol" 1
      = Except.ok (mkSpecResult
          (specLoop (fun _ => (⟨"optimal", 0, 0⟩ : SolveOutA 1 1))
            (fun _ _ => ⟨"stalled", 0⟩) (fun _ => false) 1 1 1 0 (specInit 1 1))) :=
  ⟨(alternation_nonoptimal_soft_stop _ _ _ 0 1 "chol" 5 0 0 _).1 rfl (by decide),
   (alternation_nonoptimal_soft_stop _ _ _ 0 1 "chol" 5 0 0 _).2.1
     rfl rfl rfl (by decide),
   (alternation_nonoptimal_soft_stop _ _ _ 0 1 "chol" 1 0 0 (specInit 1 1)).2.2
     (by norm_num) (by simp [validInvMethods]) (by norm_num)⟩

/-- C5: after a full round the Frobenius norm of `U_k - U_prev` is computed
as `sqrt(trace(A @ A.T))` (the embedded rational test agrees with the real
square-root comparison); strictly below `tol` the loop stops with the
tolerance reason, otherwise it continues with the counter incremented;
exhausted fuel yields the maximum-iterations reason, and the reported
iteration count never exceeds `max_iter`. -/
theorem alternation_convergence_rule {pt p : ℕ}
    (solveA : Matrix (Fin pt) (Fin pt) ℚ → SolveOutA pt p)
    (solveB : Matrix (Fin pt) (Fin p) ℚ → Matrix (Fin pt) (Fin pt) ℚ → SolveOutB pt)
    (stopFlag : ℕ → Bool) (alpha tol : ℚ) (invMethod : String)
    (maxIter r k : ℕ) (st : SpecIterState pt p) :
    (∀ (m n : ℕ) (A : Matrix (Fin m) (Fin n) ℚ),
        frobLtTol A tol = true ↔ fast_frob_norm A < (tol : ℝ))
    ∧ (stopFlag (2 * k) = false → (solveA st.Gamma).status = "optimal" →
        stopFlag (2 * k + 1) = false →
        (solveB (solveA st.Gamma).U (solveA st.Gamma).P).status = "optimal" →
        frobLtTol (st.U_prev - (solveA st.Gamma).U) tol = true →
        specLoop solveA solveB stopFlag tol maxIter (r + 1) k st
          = (k, StopReason.tolReached tol,
             { Gamma := (solveB (solveA st.Gamma).U (solveA st.Gamma).P).Gamma,
               U_prev := st.U_prev, U := (solveA st.Gamma).U,
               P := (solveA st.Gamma).P,
               difference := some (((st.U_prev - (solveA st.Gamma).U)
                 * (st.U_prev - (solveA st.Gamma).U)ᵀ).trace) }))
    ∧ (stopFlag (2 * k) = false → (solveA st.Gamma).status = "optimal" →
        stopFlag (2 * k + 1) = false →
        (solveB (solveA st.Gamma).U (solveA st.Gamma).P).status = "optimal" →
        frobLtTol (st.U_prev - (solveA st.Gamma).U) tol = false →
        specLoop solveA solveB stopFlag tol maxIter (r + 1) k st
          = specLoop solveA solveB stopFlag tol maxIter r (k + 1)
             { Gamma := (solveB (solveA st.Gamma).U (solveA st.Gamma).P).Gamma,
               U_prev := (solveA st.Gamma).U, U := (solveA st.Gamma).U,
               P := (solveA st.Gamma).P,
               difference := some (((st.U_prev - (solveA st.Gamma).U)
                 * (st.U_prev - (solveA st.Gamma).U)ᵀ).trace) })
    ∧ (specLoop solveA solveB stopFlag tol maxIter 0 k st
        = (k - 1, StopReason.maxIterReached maxIter, st))
    ∧ (maxIter ≠ 0 → ¬ alpha < 0 → invMethod ∈ validInvMethods →
        ∀ res, specFit solveA solveB stopFlag alpha tol invMethod maxIter
          = Except.ok res → res.n_iter_ ≤ maxIter) := by
  refine ⟨fun m n A => frobLtTol_iff_fast_frob_norm A tol, ?_, ?_, ?_, ?_⟩
  · intro h1 hA h2 hB hfrob
    exact specLoop_tolStop solveA solveB stopFlag tol maxIter r k st h1 hA h2 hB hfrob
  · intro h1 hA h2 hB hfrob
    exact specLoop_cont solveA solveB stopFlag tol maxIter r k st h1 hA h2 hB hfrob
  · simp [specLoop]
  · intro hmi hva hvm res hres
    have hv : validateTikhonov alpha invMethod = Except.ok () := by
      unfold validateTikhonov
      rw [if_neg hva, if_pos hvm]
    simp only [specFit, hv, if_neg hmi] at hres
    have hres' : mkSpecResult
        (specLoop solveA solveB stopFlag tol maxIter maxIter 0 (specInit pt p)) = res := by
      exact Except.ok.inj hres
    subst hres'
    have hle := specLoop_fst_le solveA solveB stopFlag tol maxIter maxIter 0 (specInit pt p)
    simp only [mkSpecResult]
    omega

/-- Witness for C5: a converging round, fuel exhaustion, and the iteration
bound, each at dimension one. -/
theorem alternation_convergence_rule_wit :
    specLoop (fun _ => (⟨"optimal", 0, 0⟩ : SolveOutA 1 1))
        (fun _ _ => ⟨"optimal", 0⟩) (fun _ => false) 1 5 (0 + 1) 0 (specInit 1 1)
      = (0, StopReason.tolReached 1,
         { Gamma := 0, U_prev := 0, U := 0, P := 0,
           difference := some ((((specInit 1 1).U_prev - 0)
             * ((specInit 1 1).U_prev - 0)ᵀ).trace) })
    ∧ specLoop (fun _ => (⟨"optimal", 0, 0⟩ : SolveOutA 1 1))
        (fun _ _ => ⟨"optimal", 0⟩) (fun _ => false) 1 5 0 7 (specInit 1 1)
      = (6, StopReason.maxIterReached 5, specInit 1 1)
    ∧ (mkSpecResult (specLoop (fun _ => (⟨"optimal", 0, 0⟩ : SolveOutA 1 1))
        (fun _ _ => ⟨"optimal", 0⟩) (fun _ => false) 1 1 1 0 (specInit 1 1))).n_iter_ ≤ 1 := by
  refine ⟨?_, ?_, ?_⟩
  · exact (alternation_convergence_rule _ _ _ 0 1 "chol" 5 0 0 (specInit 1 1)).2.1
      rfl rfl rfl rfl (by norm_num [frobLtTol, specInit])
  · exact (alternation_convergence_rule _ _ _ 0 1 "chol" 5 0 7 (specInit 1 1)).2.2.2.1
  · exact (alternation_convergence_rule (fun _ => (⟨"optimal", 0, 0⟩ : SolveOutA 1 1))
      (fun _ _ => ⟨"optimal", 0⟩) (fun _ => false) 0 1 "chol" 1 0 0 (specInit 1 1)).2.2.2.2
      (by norm_num) (by norm_num) (by simp [validInvMethods]) _
      (by norm_num [specFit, validateTikhonov, validInvMethods])

/-- Counterexample for C6: raising the flag after the first completed round
and before the second gives stop reason user-requested and the first
first-round estimate, but the reported iteration count is `2`, not `1` (the
source reports `k + 1` for the loop counter `k` at which the stop was
detected). -/
theorem cooperative_stop_count_cex :
    specFit (fun _ => (⟨"optimal", 1, 0⟩ : SolveOutA 1 1)) (fun _ _ => ⟨"optimal", 1⟩)
        (fun n => decide (2 ≤ n)) 0 1 "chol" 2
      = Except.ok
          { stop_reason_ := StopReason.userRequested, tol_reached_ := some 1,
            n_iter_ := 2, coef_ := 1, Gamma_ := 1, P_ := 0, self_returned := true }
    ∧ (2 : ℕ) ≠ 1 := by
  constructor
  · have hfit : specFit (fun _ => (⟨"optimal", 1, 0⟩ : SolveOutA 1 1))
        (fun _ _ => ⟨"optimal", 1⟩) (fun n => decide (2 ≤ n)) 0 1 "chol" 2
        = Except.ok (mkSpecResult (specLoop (fun _ => (⟨"optimal", 1, 0⟩ : SolveOutA 1 1))
            (fun _ _ => ⟨"optimal", 1⟩) (fun n => decide (2 ≤ n)) 1 2 2 0 (specInit 1 1))) := by
      norm_num [specFit, validateTikhonov, validInvMethods]
    rw [hfit]
    show Except.ok (mkSpecResult (specLoop (fun _ => (⟨"optimal", 1, 0⟩ : SolveOutA 1 1))
      (fun _ _ => ⟨"optimal", 1⟩) (fun n => decide (2 ≤ n)) 1 2 (1 + 1) 0 (specInit 1 1))) = _
    rw [specLoop_cont (fun _ => (⟨"optimal", 1, 0⟩ : SolveOutA 1 1))
      (fun _ _ => ⟨"optimal", 1⟩) (fun n => decide (2 ≤ n)) 1 2 1 0 (specInit 1 1)
      rfl rfl rfl rfl (by norm_num [frobLtTol, specInit])]
    rw [show (1 : ℕ) = 0 + 1 from rfl]
    rw [specLoop_stopA (fun _ => (⟨"optimal", 1, 0⟩ : SolveOutA 1 1))
      (fun _ _ => ⟨"optimal", 1⟩) (fun n => decide (2 ≤ n)) 1 2 0 1 _ rfl]
    norm_num [mkSpecResult, specInit]
  · norm_num

/-- C6 (amended): raising the flag after the first completed outer round
and before the second yields stop reason user-requested, the estimate of
the first round as the coefficient, and iteration count `2` (the source sets
`n_iter_ = k + 1` with `k = 1` the index of the aborted round). -/
theorem cooperative_stop_behavior {pt p : ℕ}
    (solveA : Matrix (Fin pt) (Fin pt) ℚ → SolveOutA pt p)
    (solveB : Matrix (Fin pt) (Fin p) ℚ → Matrix (Fin pt) (Fin pt) ℚ → SolveOutB pt)
    (stopFlag : ℕ → Bool) (alpha tol : ℚ) (invMethod : String) (maxIter : ℕ)
    (h0 : stopFlag 0 = false) (h1f : stopFlag 1 = false) (h2t : stopFlag 2 = true)
    (hA : (solveA (1 : Matrix (Fin pt) (Fin pt) ℚ)).status = "optimal")
    (hB : (solveB (solveA 1).U (solveA 1).P).status = "optimal")
    (hd : frobLtTol ((0 : Matrix (Fin pt) (Fin p) ℚ) - (solveA 1).U) tol = false)
    (hva : ¬ alpha < 0) (hvm : invMethod ∈ validInvMethods) (hmi : 2 ≤ maxIter) :
    specFit solveA solveB stopFlag alpha tol invMethod maxIter
      = Except.ok
        { stop_reason_ := StopReason.userRequested,
          tol_reached_ := some ((((0 : Matrix (Fin pt) (Fin p) ℚ) - (solveA 1).U)
            * ((0 : Matrix (Fin pt) (Fin p) ℚ) - (solveA 1).U)ᵀ).trace),
          n_iter_ := 2, coef_ := (solveA 1).Uᵀ,
          Gamma_ := (solveB (solveA 1).U (solveA 1).P).Gamma,
          P_ := (solveA 1).P, self_returned := true } := by
  have hv : validateTikhonov alpha invMethod = Except.ok () := by
    unfold validateTikhonov
    rw [if_neg hva, if_pos hvm]
  obtain ⟨m, rfl⟩ : ∃ m, maxIter = m + 1 + 1 := ⟨maxIter - 2, by omega⟩
  have hfit : specFit solveA solveB stopFlag alpha tol invMethod (m + 1 + 1)
      = Except.ok (mkSpecResult (specLoop solveA solveB stopFlag tol (m + 1 + 1)
          (m + 1 + 1) 0 (specInit pt p))) := by
    simp [specFit, hv]
  rw [hfit]
  rw [specLoop_cont solveA solveB stopFlag tol (m + 1 + 1) (m + 1) 0 (specInit pt p)
    (by simpa using h0) hA (by simpa using h1f) hB hd]
  rw [specLoop_stopA solveA solveB stopFlag tol (m + 1 + 1) m 1 _ (by simpa using h2t)]
  rfl

/-- Witness for C6 (amended) at dimension one with the flag raised from the
third poll on. -/
theorem cooperative_stop_behavior_wit :
    specFit (fun _ => (⟨"optimal", 1, 1⟩ : SolveOutA 1 1)) (fun _ _ => ⟨"optimal", 1⟩)
        (fun n => decide (2 ≤ n)) 0 1 "chol" 3
      = Except.ok
          { stop_reason_ := StopReason.userRequested, tol_reached_ := some 1,
            n_iter_ := 2, coef_ := 1, Gamma_ := 1, P_ := 1, self_returned := true } := by
  have h := cooperative_stop_behavior (fun _ => (⟨"optimal", 1, 1⟩ : SolveOutA 1 1))
    (fun _ _ => ⟨"optimal", 1⟩) (fun n => decide (2 ≤ n)) 0 1 "chol" 3
    rfl rfl rfl rfl rfl (by norm_num [frobLtTol]) (by norm_num)
    (by simp [validInvMethods]) (by norm_num)
  rw [h]
  norm_num

/-- C8 (code bug): `LmiEdmdSpectralRadiusConstrIco.fit` sets the fitted
attributes and ends without a `return` statement, so even a successful fit
returns `None` rather than `self`; here a fit converging in one round
still reports `self_returned = false`. -/
theorem ico_fit_returns_none :
    icoFit (le_refl 1) 1 (fun _ _ => (⟨"optimal", 0, 0⟩ : SolveOutA 1 1))
        (fun _ => false) 0 1 "chol" 1 1 1
      = Except.ok
          { stop_reason_ := StopReason.tolReached 1, tol_reached_ := some 0,
            n_iter_ := 1, coef_ := 0, self_returned := false } := by
  norm_num [icoFit, validateTikhonov, validInvMethods, icoLoop, frobLtTol]

/-- C10: the dissipativity constructor stores `alpha = 0` regardless of the
`alpha` argument, and the fit then uses `alpha_tikhonov_reg_ = 0`, raising
no error. -/
theorem dissipativity_alpha_forced_zero {pt p : ℕ} (alphaArg : ℚ)
    (maxIterArg : ℕ) (tolArg epsArg : ℚ) (invMethod : String)
    (solveA : Matrix (Fin pt) (Fin pt) ℚ → SolveOutDissipA pt p)
    (solveB : Matrix (Fin pt) (Fin p) ℚ → SolveOutDissipB pt)
    (stopFlag : ℕ → Bool)
    (hvm : invMethod ∈ validInvMethods) (hmi : maxIterArg ≠ 0) :
    (dissipativityInit alphaArg maxIterArg tolArg invMethod epsArg).alpha = 0
    ∧ ∃ res : DissipFitResult pt p,
        dissipFit (dissipativityInit alphaArg maxIterArg tolArg invMethod epsArg)
          solveA solveB stopFlag = Except.ok res
        ∧ res.alpha_tikhonov_reg_ = 0 := by
  refine ⟨rfl, ?_⟩
  have hv : validateTikhonov (0 : ℚ) invMethod = Except.ok () := by
    unfold validateTikhonov
    rw [if_neg (by norm_num), if_pos hvm]
  simp only [dissipFit, dissipativityInit, hv, if_neg hmi]
  exact ⟨_, rfl, rfl⟩

/-- Witness for C10: `alpha = 5` at the constructor still fits with zero
Tikhonov regularization. -/
theorem dissipativity_alpha_forced_zero_wit :
    (dissipativityInit 5 1 1 "chol" 0).alpha = 0
    ∧ ∃ res : DissipFitResult 1 1,
        dissipFit (dissipativityInit 5 1 1 "chol" 0)
          (fun _ => ⟨"optimal", 0⟩) (fun _ => ⟨"optimal", 0⟩) (fun _ => false)
          = Except.ok res ∧ res.alpha_tikhonov_reg_ = 0 :=
  dissipativity_alpha_forced_zero 5 1 1 0 "chol" _ _ _
    (by simp [validInvMethods]) (by norm_num)

end Pykoop
